import Mathlib

/-!
Verification development for `src/重命名与处理.js`: a shallow embedding of the
subscription-node renaming pipeline (`operator`) and proofs of the spec's claims.

Modelling conventions:
* JS strings are Lean `String`s (sequences of Unicode scalar values).  Where the
  source manipulates UTF-16 code units (`charCodeAt`, `length`, `slice`), the
  embedding converts explicitly via `utf16Units`.
* `undefined`/`null`-able values are `Option String`; JS exceptions (URIError from
  `decodeURI`, SyntaxError from `new RegExp`) are modelled by `Option` results,
  `none` meaning the exception propagates out of `operator`.
* `toUpperCase`/`toLowerCase` are modelled on the ASCII range (the only range the
  program relies on: protocol types and option keywords are ASCII).
* `String.prototype.localeCompare` and `String.prototype.normalize` depend on host
  ICU data, so the pipeline takes them as explicit function parameters `lc`/`nfkc`.
-/

set_option maxRecDepth 8000

/-- JS `safeStr`: `s == null ? '' : String(s)`, for string-or-undefined values. -/
def safeStr (s : Option String) : String := s.getD ""

/-- Template-literal conversion `${v}`: JS renders `undefined` as `"undefined"`. -/
def tmplStr (s : Option String) : String := s.getD "undefined"

/-- The JS `\s` / `trim` whitespace class. -/
def isJsSpace (c : Char) : Bool :=
  c = ' ' || c = '\t' || c = '\n' || c.val = 11 || c.val = 12 || c = '\r' ||
  c.val = 0xA0 || c.val = 0x1680 || (0x2000 ≤ c.val && c.val ≤ 0x200A) ||
  c.val = 0x2028 || c.val = 0x2029 || c.val = 0x202F || c.val = 0x205F ||
  c.val = 0x3000 || c.val = 0xFEFF

/-- JS `String.prototype.trim`. -/
def jsTrim (s : String) : String :=
  ⟨((s.data.dropWhile isJsSpace).reverse.dropWhile isJsSpace).reverse⟩

/-- ASCII-range model of JS `toUpperCase`. -/
def jsToUpper (s : String) : String := ⟨s.data.map Char.toUpper⟩

/-- ASCII-range model of JS `toLowerCase`. -/
def jsToLower (s : String) : String := ⟨s.data.map Char.toLower⟩

/-- Split on a character class, keeping empty fields (JS `split` semantics). -/
def splitCharsAux (p : Char → Bool) : List Char → List Char → List (List Char)
  | [], acc => [acc.reverse]
  | c :: rest, acc =>
    if p c then acc.reverse :: splitCharsAux p rest []
    else splitCharsAux p rest (c :: acc)

/-- JS `s.split(regex)` for a single-character-class regex. -/
def splitChars (p : Char → Bool) (s : String) : List String :=
  (splitCharsAux p s.data []).map (⟨·⟩)

/-- JS `replaceAll` with a literal, non-empty pattern (non-overlapping,
left-to-right). -/
def replaceAllL (pat repl : List Char) : Nat → List Char → List Char
  | 0, l => l
  | _ + 1, [] => []
  | fuel + 1, c :: rest =>
    if pat.isPrefixOf (c :: rest) then
      repl ++ replaceAllL pat repl fuel ((c :: rest).drop pat.length)
    else c :: replaceAllL pat repl fuel rest

/-- JS `s.replaceAll(pat, repl)` for literal patterns. -/
def replaceAllStr (s pat repl : String) : String :=
  ⟨replaceAllL pat.data repl.data (s.data.length + 1) s.data⟩

/-- First `n` characters, model of `substring(0, n)` on BMP text. -/
def takeChars (n : Nat) (s : String) : String := ⟨s.data.take n⟩

/-- Last `k` characters, model of `slice(-k)` for `k ≥ 1` on BMP text. -/
def lastChars (k : Nat) (s : String) : String := ⟨s.data.drop (s.data.length - k)⟩

/-- JS `String.prototype.includes` (substring test). -/
def strIncludesL : List Char → List Char → Bool
  | hay, needle =>
    needle.isPrefixOf hay ||
      match hay with
      | [] => false
      | _ :: t => strIncludesL t needle

/-- JS `name.includes(k)`. -/
def strIncludes (hay needle : String) : Bool := strIncludesL hay.data needle.data

/-- JS `padStart(n, '0')` for an ASCII string. -/
def padStartZeros (s : String) (n : Nat) : String :=
  if s.data.length ≥ n then s else ⟨List.replicate (n - s.data.length) '0' ++ s.data⟩

/-- UTF-16 code units of a string (astral characters become surrogate pairs),
as seen by JS `charCodeAt` / `length`. -/
def utf16Units (s : String) : List Nat :=
  (s.data.map fun c =>
    if c.val < 0x10000 then [c.toNat]
    else [0xD800 + (c.toNat - 0x10000) / 0x400, 0xDC00 + (c.toNat - 0x10000) % 0x400]).flatten

/-- Hex digit of a value `< 16`, lowercase as in JS `toString(16)`. -/
def hexDigitChar (n : Nat) : Char :=
  if n < 10 then Char.ofNat (48 + n) else Char.ofNat (87 + n)

def natToHexAux : Nat → Nat → List Char → List Char
  | 0, _, acc => acc
  | _ + 1, 0, acc => acc
  | fuel + 1, n + 1, acc => natToHexAux fuel ((n + 1) / 16) (hexDigitChar ((n + 1) % 16) :: acc)

/-- JS `Number.prototype.toString(16)` for a nonnegative integer. -/
def natToHex (n : Nat) : String :=
  if n = 0 then "0" else ⟨natToHexAux (n + 1) n []⟩

/-- Value of a hex digit character, if it is one. -/
def hexVal (c : Char) : Option Nat :=
  if '0' ≤ c ∧ c ≤ '9' then some (c.toNat - 48)
  else if 'A' ≤ c ∧ c ≤ 'F' then some (c.toNat - 55)
  else if 'a' ≤ c ∧ c ≤ 'f' then some (c.toNat - 87)
  else none

/-- Characters `decodeURI` leaves percent-encoded (uriReserved plus the hash sign). -/
def uriReservedHash : List Char := [';', '/', '?', ':', '@', '&', '=', '+', '$', ',', '#']

/-- Strict single-scalar UTF-8 decoding of 2 bytes, per the ECMAScript Decode table. -/
def utf8Cont (b : Nat) : Bool := 0x80 ≤ b && b ≤ 0xBF

/-- ECMAScript `decodeURI` on a character list; `none` models a thrown `URIError`
(malformed percent escape or invalid UTF-8 octet sequence). -/
def decodeURIChars : List Char → Option (List Char)
  | [] => some []
  | '%' :: h :: l :: rest => do
      let hv ← hexVal h
      let lv ← hexVal l
      let b := hv * 16 + lv
      if b < 0x80 then
        let out ← decodeURIChars rest
        let c := Char.ofNat b
        if uriReservedHash.contains c then some ('%' :: h :: l :: out)
        else some (c :: out)
      else if 0xC2 ≤ b ∧ b ≤ 0xDF then
        match rest with
        | '%' :: h2 :: l2 :: rest2 => do
            let hv2 ← hexVal h2
            let lv2 ← hexVal l2
            let b2 := hv2 * 16 + lv2
            if utf8Cont b2 then
              let out ← decodeURIChars rest2
              some (Char.ofNat ((b - 0xC0) * 64 + (b2 - 0x80)) :: out)
            else none
        | _ => none
      else if 0xE0 ≤ b ∧ b ≤ 0xEF then
        match rest with
        | '%' :: h2 :: l2 :: '%' :: h3 :: l3 :: rest2 => do
            let hv2 ← hexVal h2
            let lv2 ← hexVal l2
            let b2 := hv2 * 16 + lv2
            let hv3 ← hexVal h3
            let lv3 ← hexVal l3
            let b3 := hv3 * 16 + lv3
            let okB2 :=
              (b = 0xE0 && (0xA0 ≤ b2 && b2 ≤ 0xBF)) ||
              (0xE1 ≤ b && b ≤ 0xEC && utf8Cont b2) ||
              (b = 0xED && (0x80 ≤ b2 && b2 ≤ 0x9F)) ||
              (0xEE ≤ b && utf8Cont b2)
            if okB2 && utf8Cont b3 then
              let out ← decodeURIChars rest2
              some (Char.ofNat ((b - 0xE0) * 4096 + (b2 - 0x80) * 64 + (b3 - 0x80)) :: out)
            else none
        | _ => none
      else if 0xF0 ≤ b ∧ b ≤ 0xF4 then
        match rest with
        | '%' :: h2 :: l2 :: '%' :: h3 :: l3 :: '%' :: h4 :: l4 :: rest2 => do
            let hv2 ← hexVal h2
            let lv2 ← hexVal l2
            let b2 := hv2 * 16 + lv2
            let hv3 ← hexVal h3
            let lv3 ← hexVal l3
            let b3 := hv3 * 16 + lv3
            let hv4 ← hexVal h4
            let lv4 ← hexVal l4
            let b4 := hv4 * 16 + lv4
            let okB2 :=
              (b = 0xF0 && (0x90 ≤ b2 && b2 ≤ 0xBF)) ||
              (0xF1 ≤ b && b ≤ 0xF3 && utf8Cont b2) ||
              (b = 0xF4 && (0x80 ≤ b2 && b2 ≤ 0x8F))
            if okB2 && utf8Cont b3 && utf8Cont b4 then
              let out ← decodeURIChars rest2
              some (Char.ofNat
                ((b - 0xF0) * 262144 + (b2 - 0x80) * 4096 + (b3 - 0x80) * 64 + (b4 - 0x80)) :: out)
            else none
        | _ => none
      else none
  | '%' :: _ => none
  | c :: rest => do
      let out ← decodeURIChars rest
      some (c :: out)

/-- JS `decodeURI`; `none` models a thrown `URIError`. -/
def decodeURI (s : String) : Option String := (decodeURIChars s.data).map (⟨·⟩)

/-! ### Regular expressions

The program compiles every regex with the `i` flag only.  The engine below covers
exactly the constructs its patterns use: literal characters, alternation `|`,
the optional quantifier `?`, the class `\s`, the word-boundary assertion `\b`,
and backslash-escaped literal characters.  `parseRE` rejects anything else, which
for `new RegExp` call sites models a compile failure. -/

inductive RE where
  | eps : RE
  | lit : Char → RE
  | ws : RE
  | wordB : RE
  | seq : RE → RE → RE
  | alt : RE → RE → RE
  | opt : RE → RE
deriving DecidableEq, Repr

/-- JS `\w` (word character) for the `\b` assertion. -/
def isWordChar (c : Char) : Bool :=
  ('A' ≤ c && c ≤ 'Z') || ('a' ≤ c && c ≤ 'z') || ('0' ≤ c && c ≤ '9') || c = '_'

/-- Case folding for the `i` flag (ASCII canonicalization). -/
def foldCase (c : Char) : Char := c.toLower

/-- Backtracking matcher in continuation style.  `prev` is the character just
before the current position (for `\b`); the continuation receives the updated
`prev` and the remaining input, and returns the suffix after a full match. -/
def reMatch : RE → Option Char → List Char →
    (Option Char → List Char → Option (List Char)) → Option (List Char)
  | .eps, prev, s, k => k prev s
  | .lit c, _, s, k =>
    match s with
    | [] => none
    | x :: xs => if foldCase x = foldCase c then k (some x) xs else none
  | .ws, _, s, k =>
    match s with
    | [] => none
    | x :: xs => if isJsSpace x then k (some x) xs else none
  | .wordB, prev, s, k =>
    let lw := match prev with | some c => isWordChar c | none => false
    let rw := match s with | x :: _ => isWordChar x | [] => false
    if lw ≠ rw then k prev s else none
  | .seq a b, prev, s, k => reMatch a prev s (fun p r => reMatch b p r k)
  | .alt a b, prev, s, k => (reMatch a prev s k).orElse (fun _ => reMatch b prev s k)
  | .opt a, prev, s, k => (reMatch a prev s k).orElse (fun _ => k prev s)

/-- Leftmost search: returns the prefix before the first match and the suffix
after it, or `none` when the regex matches nowhere. -/
def reSearchAux (re : RE) : Option Char → List Char → Option (List Char × List Char)
  | prev, s =>
    match reMatch re prev s (fun _ r => some r) with
    | some r => some ([], r)
    | none =>
      match s with
      | [] => none
      | x :: xs => (reSearchAux re (some x) xs).map (fun pr => (x :: pr.1, pr.2))

/-- JS `regex.test(s)` (for `i`-flagged regexes without `g`). -/
def reTest (re : RE) (s : String) : Bool := (reSearchAux re none s.data).isSome

/-- JS `s.replace(regex, '')` without the `g` flag: delete the first match. -/
def reDeleteFirst (re : RE) (s : String) : String :=
  match reSearchAux re none s.data with
  | none => s
  | some pr => ⟨pr.1 ++ pr.2⟩

/-- Characters the mini regex parser refuses to treat as literals. -/
def reSpecial (c : Char) : Bool :=
  c = '(' || c = ')' || c = '[' || c = ']' || c = '{' || c = '}' ||
  c = '*' || c = '+' || c = '.' || c = '^' || c = '$' || c = '?'

/-- Fuel-indexed parser for one alternation branch (a sequence of atoms,
stopping at `|` or the end). -/
def parseSeqF : Nat → List Char → Option (RE × List Char)
  | 0, _ => none
  | _ + 1, [] => some (.eps, [])
  | fuel + 1, c :: rest =>
    if c = '|' then some (.eps, c :: rest)
    else if reSpecial c then none
    else do
      let (a, rest1) ←
        if c = '\\' then
          match rest with
          | [] => none
          | e :: rest2 =>
            if e = 'b' then some ((.wordB : RE), rest2)
            else if e = 's' then some ((.ws : RE), rest2)
            else if e.isAlphanum then none
            else some ((.lit e : RE), rest2)
        else some ((.lit c : RE), rest)
      match rest1 with
      | '?' :: rest2 => do
          let (b, rest3) ← parseSeqF fuel rest2
          some (.seq (.opt a) b, rest3)
      | _ => do
          let (b, rest3) ← parseSeqF fuel rest1
          some (.seq a b, rest3)

/-- Fuel-indexed parser for a full alternation. -/
def parseAltF : Nat → List Char → Option (RE × List Char)
  | 0, _ => none
  | fuel + 1, input => do
    let (a, rest) ← parseSeqF (input.length + 1) input
    match rest with
    | '|' :: rest2 => do
        let (b, rest3) ← parseAltF fuel rest2
        some (.alt a b, rest3)
    | _ => some (a, rest)

/-- Compile a pattern of the supported subset; `none` models `new RegExp` failure
(and also rejects JS-valid constructs outside the subset, which only ever makes
the model's compile-failure behaviour trigger more often). -/
def parseRE (s : String) : Option RE :=
  match parseAltF (s.length + 1) s.data with
  | some (r, []) => some r
  | _ => none

/-! ### Text cleanup primitives (source lines 94–116) -/

/-- JS `removeEmoji`: deletes every surrogate pair, i.e. every astral character. -/
def removeEmoji (s : String) : String := ⟨s.data.filter (fun c => c.val < 0x10000)⟩

/-- Characters replaced by `sanitizeChars`. -/
def isIllegalChar (c : Char) : Bool :=
  c = '\\' || c = '/' || c = ':' || c = '*' || c = '?' || c = '"' || c = '<' || c = '>' || c = '|'

/-- JS `sanitizeChars`: replace `\ / : * ? " < > |` by `-`. -/
def sanitizeChars (s : String) : String :=
  ⟨s.data.map (fun c => if isIllegalChar c then '-' else c)⟩

/-- One pass of `replace(/\s{2,}/g, ' ')`: only runs of two or more whitespace
characters collapse to a single space; a lone whitespace character is kept. -/
def collapseRuns2F : Nat → List Char → List Char
  | 0, l => l
  | _ + 1, [] => []
  | fuel + 1, c :: rest =>
    if isJsSpace c then
      match rest with
      | d :: _ =>
        if isJsSpace d then ' ' :: collapseRuns2F fuel (rest.dropWhile isJsSpace)
        else c :: collapseRuns2F fuel rest
      | [] => [c]
    else c :: collapseRuns2F fuel rest

/-- JS `trimSpaces`: `s.replace(/\s{2,}/g, ' ').trim()`. -/
def trimSpaces (s : String) : String := jsTrim ⟨collapseRuns2F (s.data.length + 1) s.data⟩

/-- Replacement of `/\s+/g` by a single space (used by `cleanRegionFromName`). -/
def collapseAllF : Nat → List Char → List Char
  | 0, l => l
  | _ + 1, [] => []
  | fuel + 1, c :: rest =>
    if isJsSpace c then ' ' :: collapseAllF fuel (rest.dropWhile isJsSpace)
    else c :: collapseAllF fuel rest

/-- Sum of UTF-16 widths, JS `s.length`. -/
def utf16Len (s : String) : Nat := (utf16Units s).length

/-- First `n` UTF-16 code units as characters; a surrogate pair straddling the
cut is dropped whole (JS would keep a lone high surrogate, which a Lean string
cannot represent; the pipeline's claims never reach this corner). -/
def takeUnits : Nat → List Char → List Char
  | _, [] => []
  | 0, _ => []
  | n + 1, c :: rest =>
    let w := if c.val < 0x10000 then 1 else 2
    if w ≤ n + 1 then c :: takeUnits (n + 1 - w) rest else []

/-- JS `truncateText`: `(maxLen && s.length > maxLen) ? s.slice(0, maxLen-1) + '…' : s`.
Only ever called with `maxLen > 0` (guard in `processName`). -/
def truncateText (s : String) (maxLen : Int) : String :=
  if maxLen ≠ 0 ∧ (utf16Len s : Int) > maxLen then ⟨takeUnits (maxLen - 1).toNat s.data⟩ ++ "…"
  else s

/-- CJK ranges of the source's `CJK` regex. -/
def isCjkChar (c : Char) : Bool :=
  (0x2E80 ≤ c.val && c.val ≤ 0x2EFF) || (0x2F00 ≤ c.val && c.val ≤ 0x2FDF) ||
  (0x3040 ≤ c.val && c.val ≤ 0x30FF) || (0x3400 ≤ c.val && c.val ≤ 0x4DBF) ||
  (0x4E00 ≤ c.val && c.val ≤ 0x9FFF) || (0xF900 ≤ c.val && c.val ≤ 0xFAFF)

/-- The source's `/[A-Za-z0-9]/` test. -/
def isAsciiAlnum (c : Char) : Bool :=
  ('A' ≤ c && c ≤ 'Z') || ('a' ≤ c && c ≤ 'z') || ('0' ≤ c && c ≤ '9')

def addCjkSpacesAux : List Char → List Char
  | [] => []
  | [c] => [c]
  | c :: next :: rest =>
    if ((isCjkChar c && isAsciiAlnum next) || (isAsciiAlnum c && isCjkChar next)) && c ≠ ' '
    then c :: ' ' :: addCjkSpacesAux (next :: rest)
    else c :: addCjkSpacesAux (next :: rest)

/-- JS `addCjkSpaces`: inserts a space at each CJK/Latin-alphanumeric boundary
(the source's `result[result.length-1] !== ' '` check is the `c ≠ ' '` guard). -/
def addCjkSpaces (s : String) : String := ⟨addCjkSpacesAux s.data⟩

/-! ### The rolling hash (source lines 118–125)

JS evaluates `((hash << 5) + hash) + charCode` where `<<` passes through
`ToInt32`; the additions themselves are exact (float64 on integers far below
2^53 at the name lengths this pipeline processes). -/

/-- ECMAScript `ToInt32` on an integer. -/
def toInt32 (x : Int) : Int := (x + 2 ^ 31) % 2 ^ 32 - 2 ^ 31

/-- ECMAScript `ToUint32` on an integer (the `>>> 0` step). -/
def toUint32 (x : Int) : Int := x % 2 ^ 32

/-- JS `hash << 5`: `ToInt32(hash)` shifted left by 5 with 32-bit wraparound. -/
def jsShl5 (x : Int) : Int := toInt32 (toInt32 x * 32)

/-- One step of the loop body `hash = ((hash << 5) + hash) + text.charCodeAt(i)`. -/
def hashStep (h : Int) (c : Nat) : Int := jsShl5 h + h + (c : Int)

/-- JS `generateHash(str, length)`: rolling hash of the UTF-16 units, rendered
via `(hash >>> 0).toString(16).slice(-Math.max(1, length))`.  `len = none`
models a `NaN` length (then `slice(-NaN)` is `slice(0)`, the whole string). -/
def generateHash (str : String) (len : Option Int) : String :=
  let h := (utf16Units str).foldl hashStep 5381
  let hex := natToHex (toUint32 h).toNat
  match len with
  | none => hex
  | some n => lastChars (max 1 n).toNat hex

/-! ### Data model -/

/-- A proxy-node record: the four fields the pipeline reads, plus passthrough
fields (`extra`) it must not touch. -/
structure Proxy where
  type : Option String := none
  name : Option String := none
  server : Option String := none
  port : Option String := none
  extra : List (String × String) := []
deriving DecidableEq, Repr

/-- One element of the `proxies` array: a structured record or anything else
(`null`, a number, a string, ...), which the sanitize stage drops. -/
inductive Entry where
  | obj : Proxy → Entry
  | nonObj : Entry
deriving DecidableEq, Repr

/-- The `proxies` argument itself: an array, or any non-array value. -/
inductive JSInput where
  | arr : List Entry → JSInput
  | nonArray : JSInput
deriving DecidableEq, Repr

/-- The `$arguments` option map; every recognized key, `none` = absent.
`caseArg`/`includeArg` model the source keys `case`/`include` (Lean keywords). -/
structure Args where
  name : Option String := none
  subName : Option String := none
  abbr : Option String := none
  typeFmt : Option String := none
  caseArg : Option String := none
  includeType : Option String := none
  pos : Option String := none
  sep : Option String := none
  template : Option String := none
  keepUnknownType : Option String := none
  map : Option String := none
  removeEmoji : Option String := none
  sanitize : Option String := none
  trimSpaces : Option String := none
  maxLen : Option String := none
  normalize : Option String := none
  cjkSpace : Option String := none
  includeArg : Option String := none
  exclude : Option String := none
  regexInclude : Option String := none
  regexExclude : Option String := none
  onlyTypes : Option String := none
  dropTypes : Option String := none
  dedupe : Option String := none
  sortBy : Option String := none
  sortOrder : Option String := none
  addFlag : Option String := none
  locLang : Option String := none
  regionMap : Option String := none
  fallbackFlag : Option String := none
  removeRegionName : Option String := none
  conflict : Option String := none
  indexPad : Option String := none
  hashLen : Option String := none
deriving DecidableEq, Repr

/-- A region rule: detection regex, two labels, flag glyph. -/
structure Region where
  key : RE
  zh : String
  en : String
  flag : String
deriving DecidableEq, Repr

/-- The fully parsed configuration (the `const` block of `operator`).
`maxLen`/`indexPad`/`hashLen` use `none` for JS `NaN`. -/
structure Config where
  subName : String
  useAbbr : Bool
  typeFmt : String
  typeCase : String
  sep : String
  includeType : Bool
  pos : String
  template : String
  keepUnknownType : String
  enableRemoveEmoji : Bool
  enableTrimSpaces : Bool
  enableSanitize : Bool
  maxLen : Option Int
  enableNormalize : Bool
  enableCjkSpace : Bool
  includeKw : List String
  excludeKw : List String
  rxInclude : Option RE
  rxExclude : Option RE
  onlyTypes : List String
  dropTypes : List String
  dedupe : String
  sortBy : String
  sortOrder : String
  addFlag : Bool
  locLang : String
  fallbackFlag : String
  removeRegionName : Bool
  conflict : String
  indexPad : Option Int
  hashLen : Option Int
  typeAbbr : List (String × String)
  userRegions : List Region
deriving DecidableEq, Repr

/-! ### Option coercions (source lines 74–92, 129–168) -/

/-- JS `parseBool`. -/
def parseBool (v : Option String) (dflt : Bool) : Bool :=
  match v with
  | none => dflt
  | some s =>
    let t := jsToLower s
    if t = "1" ∨ t = "true" ∨ t = "on" ∨ t = "yes" then true
    else if t = "0" ∨ t = "false" ∨ t = "off" ∨ t = "no" then false
    else dflt

/-- The split of `parseList`: `/[+,]/`. -/
def splitListSep (s : String) : List String := splitChars (fun c => c = '+' || c = ',') s

/-- JS `parseList`; the outer `Option` is the (uncaught) `decodeURI` exception. -/
def parseList (v : Option String) : Option (List String) :=
  match v with
  | none => some []
  | some s =>
    if s = "" then some []
    else (decodeURI s).map (fun d => ((splitListSep d).map jsTrim).filter (· ≠ ""))

/-- JS `toRegex`: the `try/catch` swallows both `decodeURI` and `RegExp` errors,
so this is total; `none` is the JS `null` (feature disabled). -/
def toRegex (v : Option String) : Option RE :=
  match v with
  | none => none
  | some s =>
    if s = "" then none
    else
      match decodeURI s with
      | none => none
      | some d => parseRE d

/-- Decimal value of a digit list. -/
def digitsVal (l : List Char) : Nat := l.foldl (fun a c => a * 10 + (c.toNat - 48)) 0

/-- JS `parseInt(s, 10)`; `none` models `NaN`. -/
def parseIntJS (s : String) : Option Int :=
  match s.data.dropWhile isJsSpace with
  | '-' :: r =>
    let ds := r.takeWhile (fun c => '0' ≤ c && c ≤ '9')
    if ds = [] then none else some (-(digitsVal ds : Int))
  | '+' :: r =>
    let ds := r.takeWhile (fun c => '0' ≤ c && c ≤ '9')
    if ds = [] then none else some (digitsVal ds)
  | r =>
    let ds := r.takeWhile (fun c => '0' ≤ c && c ≤ '9')
    if ds = [] then none else some (digitsVal ds)

/-- JS `v || dflt` for string options. -/
def orDefault (v : Option String) (dflt : String) : String :=
  match v with
  | none => dflt
  | some s => if s = "" then dflt else s

/-! ### Type-abbreviation table (source lines 171–192) -/

def typeAbbrBase : List (String × String) :=
  [("SHADOWSOCKS", "SS"), ("VMESS", "VM"), ("TROJAN", "TR"), ("HYSTERIA", "HY"),
   ("HYSTERIA2", "HY2"), ("VLESS", "VL"), ("WIREGUARD", "WG"), ("TUIC", "TUIC"),
   ("HTTP", "HTTP"), ("SOCKS5", "S5"), ("SNELL", "SN"), ("ANYTLS", "AT")]

/-- Property write `tbl[k] = v` on the model of a JS object. -/
def assocSet (l : List (String × String)) (k v : String) : List (String × String) :=
  if l.any (fun kv => kv.1 = k) then l.map (fun kv => if kv.1 = k then (k, v) else kv)
  else l ++ [(k, v)]

/-- Property read `tbl[k]`. -/
def assocGet (l : List (String × String)) (k : String) : Option String :=
  (l.find? (fun kv => kv.1 = k)).map (·.2)

/-- The user `map` override loop: `pair.split(':')`, `if (k && v)`, write. -/
def applyMapPairs (tbl : List (String × String)) (pairs : List String) : List (String × String) :=
  pairs.foldl (fun t pair =>
    match splitChars (· = ':') pair with
    | [] => t
    | k :: rest =>
      match rest with
      | [] => t
      | v :: _ => if k ≠ "" ∧ v ≠ "" then assocSet t (jsToUpper (jsTrim k)) (jsTrim v) else t) tbl

/-! ### Region rules (source lines 195–273) -/

/-- Builds a rule from its regex source text and labels; `none` would mean the
pattern falls outside the parser's subset (the sanity lemma
`builtInRegions_length` checks all built-in patterns compile). -/
def mkRule (pat zh en flag : String) : Option Region :=
  (parseRE pat).map fun re => { key := re, zh := zh, en := en, flag := flag }

/-- The built-in region table, in source order. -/
def builtInRegions : List Region :=
  ([mkRule "Hong\\s?Kong|\\bHKG?\\b|香港" "香港" "Hong Kong" "🇭🇰",
    mkRule "Singapore|\\bSGP?\\b|新加坡|狮城" "新加坡" "Singapore" "🇸🇬",
    mkRule "Japan|\\bJPN?\\b|日本|Tokyo|东京|大阪|Osaka" "日本" "Japan" "🇯🇵",
    mkRule "Korea|\\bKOR?\\b|韩国|Seoul|首尔" "韩国" "Korea" "🇰🇷",
    mkRule "Taiwan|\\bTWN?\\b|台湾|Taipei|台北" "台湾" "Taiwan" "🇹🇼",
    mkRule "\\bChina\\b|\\bCHN?\\b|中国|Beijing|上海|深圳|广州" "中国" "China" "🇨🇳",
    mkRule "Macao|\\bMAC\\b|\\bMO\\b|澳门" "澳门" "Macao" "🇲🇴",
    mkRule "Malaysia|\\bMYS?\\b|马来西亚|Kuala\\s?Lumpur" "马来西亚" "Malaysia" "🇲🇾",
    mkRule "Thailand|\\bTHA?\\b|泰国|Bangkok|曼谷" "泰国" "Thailand" "🇹🇭",
    mkRule "Vietnam|\\bVNM?\\b|越南|Ho\\s?Chi\\s?Minh" "越南" "Vietnam" "🇻🇳",
    mkRule "Philippines|\\bPHL?\\b|菲律宾|Manila" "菲律宾" "Philippines" "🇵🇭",
    mkRule "Indonesia|\\bIDN?\\b|印尼|印度尼西亚|Jakarta" "印尼" "Indonesia" "🇮🇩",
    mkRule "\\bIndia\\b|\\bIND?\\b|印度|Mumbai|Delhi" "印度" "India" "🇮🇳",
    mkRule "\\bTurkey\\b|\\bTUR?\\b|土耳其|Istanbul|伊斯坦布尔" "土耳其" "Turkey" "🇹🇷",
    mkRule "Israel|\\bISR?\\b|以色列|Tel\\s?Aviv" "以色列" "Israel" "🇮🇱",
    mkRule "\\bUAE\\b|\\bARE\\b|阿联酋|Dubai|迪拜" "阿联酋" "UAE" "🇦🇪",
    mkRule "United\\s?States|\\bUSA\\b|\\bUS\\b|美国|Los\\s?Angeles|San\\s?Jose|New\\s?York|Chicago|Miami|Seattle|Dallas" "美国" "United States" "🇺🇸",
    mkRule "\\bCanada\\b|\\bCAN?\\b|加拿大|Toronto|Vancouver|Montreal" "加拿大" "Canada" "🇨🇦",
    mkRule "Mexico|\\bMEX?\\b|墨西哥|Mexico\\s?City" "墨西哥" "Mexico" "🇲🇽",
    mkRule "United\\s?Kingdom|\\bGBR\\b|\\bUK\\b|英国|London|伦敦" "英国" "United Kingdom" "🇬🇧",
    mkRule "Germany|\\bDEU?\\b|德国|Frankfurt|Berlin|法兰克福|柏林" "德国" "Germany" "🇩🇪",
    mkRule "\\bFrance\\b|\\bFRA?\\b|法国|Paris|巴黎" "法国" "France" "🇫🇷",
    mkRule "Netherlands|\\bNLD?\\b|荷兰|Amsterdam|阿姆斯特丹" "荷兰" "Netherlands" "🇳🇱",
    mkRule "Russia|\\bRUS?\\b|俄罗斯|Moscow|莫斯科" "俄罗斯" "Russia" "🇷🇺",
    mkRule "\\bItaly\\b|\\bITA?\\b|意大利|Rome|Milan|罗马|米兰" "意大利" "Italy" "🇮🇹",
    mkRule "\\bSpain\\b|\\bESP?\\b|西班牙|Madrid|Barcelona" "西班牙" "Spain" "🇪🇸",
    mkRule "Switzerland|\\bCHE?\\b|瑞士|Zurich|苏黎世" "瑞士" "Switzerland" "🇨🇭",
    mkRule "Sweden|\\bSWE?\\b|瑞典|Stockholm" "瑞典" "Sweden" "🇸🇪",
    mkRule "Norway|\\bNOR?\\b|挪威|Oslo" "挪威" "Norway" "🇳🇴",
    mkRule "Finland|\\bFIN?\\b|芬兰|Helsinki" "芬兰" "Finland" "🇫🇮",
    mkRule "Denmark|\\bDNK?\\b|丹麦|Copenhagen" "丹麦" "Denmark" "🇩🇰",
    mkRule "Poland|\\bPOL?\\b|波兰|Warsaw" "波兰" "Poland" "🇵🇱",
    mkRule "Austria|\\bAUT?\\b|奥地利|Vienna" "奥地利" "Austria" "🇦🇹",
    mkRule "Belgium|\\bBEL?\\b|比利时|Brussels" "比利时" "Belgium" "🇧🇪",
    mkRule "Czech|\\bCZE?\\b|捷克|Prague" "捷克" "Czech Republic" "🇨🇿",
    mkRule "Hungary|\\bHUN?\\b|匈牙利|Budapest" "匈牙利" "Hungary" "🇭🇺",
    mkRule "Romania|\\bROU?\\b|罗马尼亚|Bucharest" "罗马尼亚" "Romania" "🇷🇴",
    mkRule "Bulgaria|\\bBGR?\\b|保加利亚|Sofia" "保加利亚" "Bulgaria" "🇧🇬",
    mkRule "Ukraine|\\bUKR?\\b|乌克兰|Kiev" "乌克兰" "Ukraine" "🇺🇦",
    mkRule "Ireland|\\bIRL?\\b|爱尔兰|Dublin" "爱尔兰" "Ireland" "🇮🇪",
    mkRule "Portugal|\\bPRT?\\b|葡萄牙|Lisbon" "葡萄牙" "Portugal" "🇵🇹",
    mkRule "Greece|\\bGRC?\\b|希腊|Athens" "希腊" "Greece" "🇬🇷",
    mkRule "Iceland|\\bISL?\\b|冰岛|Reykjavik" "冰岛" "Iceland" "🇮🇸",
    mkRule "Australia|\\bAUS?\\b|澳大利亚|澳洲|Sydney|Melbourne|悉尼|墨尔本" "澳大利亚" "Australia" "🇦🇺",
    mkRule "New\\s?Zealand|\\bNZL?\\b|新西兰|Auckland|Wellington" "新西兰" "New Zealand" "🇳🇿",
    mkRule "Brazil|\\bBRA?\\b|巴西|Sao\\s?Paulo|Rio" "巴西" "Brazil" "🇧🇷",
    mkRule "Argentina|\\bARG?\\b|阿根廷|Buenos\\s?Aires" "阿根廷" "Argentina" "🇦🇷",
    mkRule "Chile|\\bCHL?\\b|智利|Santiago" "智利" "Chile" "🇨🇱",
    mkRule "South\\s?Africa|\\bZAF?\\b|南非|Cape\\s?Town|Johannesburg" "南非" "South Africa" "🇿🇦",
    mkRule "Egypt|\\bEGY?\\b|埃及|Cairo" "埃及" "Egypt" "🇪🇬",
    mkRule "Nigeria|\\bNGA?\\b|尼日利亚|Lagos" "尼日利亚" "Nigeria" "🇳🇬"]).filterMap id

/-- The user `regionMap` loop (source lines 260–273); `new RegExp(parts[0], 'i')`
is NOT inside a try/catch, so a failing compile propagates (`none`). -/
def buildUserRegions : List String → Option (List Region)
  | [] => some []
  | e :: rest =>
    match splitChars (· = ':') e with
    | [] => buildUserRegions rest
    | p0 :: restP =>
      if p0 = "" then buildUserRegions rest
      else do
        let re ← parseRE p0
        let lbl := if restP.headD "" ≠ "" then restP.headD "" else p0
        let tail ← buildUserRegions rest
        some ({ key := re, zh := lbl, en := lbl, flag := (restP.drop 1).headD "" } :: tail)

/-! ### Core processing functions (source lines 276–376) -/

/-- `detectRegion`: user rules first, then built-in rules, first match wins. -/
def detectRegion (cfg : Config) (name : String) : Option Region :=
  match cfg.userRegions.find? (fun r => reTest r.key name) with
  | some r => some r
  | none => builtInRegions.find? (fun r => reTest r.key name)

/-- `buildRegionStr`. -/
def buildRegionStr (cfg : Config) (name : String) : String :=
  if !cfg.addFlag then ""
  else
    let region := detectRegion cfg name
    let flag :=
      match region with
      | some r => if r.flag = "" then cfg.fallbackFlag else r.flag
      | none => cfg.fallbackFlag
    if cfg.locLang = "flag" then flag
    else
      let label :=
        match region with
        | some r => if cfg.locLang = "en" then r.en else r.zh
        | none => ""
      if label ≠ "" then flag ++ " " ++ label else flag

/-- `buildTypeDisplay`. -/
def buildTypeDisplay (cfg : Config) (fullType : String) : String :=
  let upperType := jsToUpper fullType
  let found := (assocGet cfg.typeAbbr upperType).getD ""
  if found = "" ∧ cfg.keepUnknownType = "ignore" then ""
  else
    let abbr :=
      if found = "" then (if cfg.keepUnknownType = "full" then upperType else takeChars 2 upperType)
      else found
    let label := if cfg.useAbbr then abbr else upperType
    let label2 := if cfg.typeCase = "lower" then jsToLower label else label
    if cfg.typeFmt = "paren" then "(" ++ label2 ++ ")"
    else if cfg.typeFmt = "none" then label2
    else "[" ++ label2 ++ "]"

/-- Regional-indicator test for the `/[\u{1F1E6}-\u{1F1FF}]{2}/gu` removal. -/
def isRegionalIndicator (c : Char) : Bool := 0x1F1E6 ≤ c.val && c.val ≤ 0x1F1FF

/-- Global removal of adjacent regional-indicator pairs (flag emoji). -/
def removeRIPairs : List Char → List Char
  | a :: b :: rest =>
    if isRegionalIndicator a && isRegionalIndicator b then removeRIPairs rest
    else a :: removeRIPairs (b :: rest)
  | l => l

/-- The literal alternatives of `/🏴‍☠️|🏳️‍🌈|🏳️‍⚧️|🏴|🏳️/g`, in source order. -/
def flagEmojiSeqs : List (List Char) :=
  ["🏴‍☠️".data, "🏳️‍🌈".data, "🏳️‍⚧️".data, "🏴".data, "🏳️".data]

/-- Global removal of the flag-emoji literal alternatives (leftmost-first). -/
def stripFlagSeqsF : Nat → List Char → List Char
  | 0, l => l
  | _ + 1, [] => []
  | fuel + 1, c :: rest =>
    match flagEmojiSeqs.findSome?
        (fun p => if p.isPrefixOf (c :: rest) then some ((c :: rest).drop p.length) else none) with
    | some rest2 => stripFlagSeqsF fuel rest2
    | none => c :: stripFlagSeqsF fuel rest

/-- `cleanRegionFromName` (source lines 311–333). -/
def cleanRegionFromName (cfg : Config) (name : String) : String :=
  if !cfg.removeRegionName then name
  else
    let n1 := cfg.userRegions.foldl (fun acc r => jsTrim (reDeleteFirst r.key acc)) name
    let n2 := builtInRegions.foldl (fun acc r => jsTrim (reDeleteFirst r.key acc)) n1
    let n3 := jsTrim ⟨removeRIPairs n2.data⟩
    let n4 := jsTrim ⟨stripFlagSeqsF (n3.data.length + 1) n3.data⟩
    jsTrim ⟨collapseAllF (n4.data.length + 1) n4.data⟩

/-- `processName` (source lines 335–376).  `nfkc` models `normalize('NFKC')`. -/
def processName (nfkc : String → String) (cfg : Config) (p : Proxy) : Proxy :=
  let fullType := jsToUpper (safeStr p.type)
  let typeDisplay := if cfg.includeType then buildTypeDisplay cfg fullType else ""
  let originalName := safeStr p.name
  let newName0 := cleanRegionFromName cfg originalName
  let regionStr := buildRegionStr cfg originalName
  let shouldFormat :=
    cfg.subName ≠ "" || cfg.template ≠ "" || cfg.includeType = false || cfg.addFlag
  let newName1 :=
    if shouldFormat then
      if cfg.template ≠ "" then
        replaceAllStr (replaceAllStr (replaceAllStr (replaceAllStr (replaceAllStr
          cfg.template "\x7bprefix\x7d" cfg.subName) "{sep}" cfg.sep) "{type}" typeDisplay)
          "{region}" regionStr) "{name}" newName0
      else if cfg.subName ≠ "" then
        let parts :=
          (if regionStr ≠ "" then [regionStr] else []) ++ [cfg.subName] ++
            (if cfg.pos = "before" then
              (if typeDisplay ≠ "" then [typeDisplay] else []) ++ [newName0]
            else
              [newName0] ++ (if typeDisplay ≠ "" then [typeDisplay] else []))
        String.intercalate cfg.sep parts
      else newName0
    else newName0
  let n2 := if cfg.enableRemoveEmoji then removeEmoji newName1 else newName1
  let n3 := if cfg.enableSanitize then sanitizeChars n2 else n2
  let n4 := if cfg.enableTrimSpaces then trimSpaces n3 else n3
  let n5 := if cfg.enableNormalize then nfkc n4 else n4
  let n6 := if cfg.enableCjkSpace then trimSpaces (addCjkSpaces n5) else n5
  let n7 :=
    match cfg.maxLen with
    | some m => if m > 0 then truncateText n6 m else n6
    | none => n6
  { p with name := some n7 }

/-! ### Configuration parsing (source lines 66–192, 260–273) -/

/-- The `args.subName` half of the `subName` initializer. -/
def decodeSubAlt (args : Args) : Option String :=
  match args.subName with
  | some s => if s = "" then some "" else decodeURI s
  | none => some ""

/-- `args.name ? decodeURI(args.name) : (args.subName ? decodeURI(args.subName) : "")`. -/
def decodeName (args : Args) : Option String :=
  match args.name with
  | some s => if s = "" then decodeSubAlt args else decodeURI s
  | none => decodeSubAlt args

/-- `args.sep !== undefined ? decodeURI(args.sep) : " - "`. -/
def decodeSep (args : Args) : Option String :=
  match args.sep with | some s => decodeURI s | none => some " - "

/-- `args.template ? decodeURI(String(args.template)) : ""`. -/
def decodeTemplate (args : Args) : Option String :=
  match args.template with
  | some s => if s = "" then some "" else decodeURI s
  | none => some ""

/-- `args.fallbackFlag ? decodeURI(String(args.fallbackFlag)) : '🏴‍☠️'`. -/
def decodeFallbackFlag (args : Args) : Option String :=
  match args.fallbackFlag with
  | some s => if s = "" then some "🏴‍☠️" else decodeURI s
  | none => some "🏴‍☠️"

/-- The whole option-parsing prefix of `operator`; `none` means one of the
unguarded `decodeURI` calls or a user `regionMap` regex compile threw. -/
def parseConfig (args : Args) : Option Config := do
  let subName ← decodeName args
  let sep ← decodeSep args
  let template ← decodeTemplate args
  let includeKw ← parseList args.includeArg
  let excludeKw ← parseList args.exclude
  let onlyTypesL ← parseList args.onlyTypes
  let dropTypesL ← parseList args.dropTypes
  let fallbackFlag ← decodeFallbackFlag args
  let mapPairs ← parseList args.map
  let regionPairs ← parseList args.regionMap
  let userRegions ← buildUserRegions regionPairs
  some {
    subName := subName
    useAbbr := parseBool args.abbr true
    typeFmt := jsToLower (orDefault args.typeFmt "bracket")
    typeCase := jsToLower (orDefault args.caseArg "upper")
    sep := sep
    includeType := parseBool args.includeType true
    pos := jsToLower (orDefault args.pos "before")
    template := template
    keepUnknownType := jsToLower (orDefault args.keepUnknownType "short")
    enableRemoveEmoji := parseBool args.removeEmoji false
    enableTrimSpaces := parseBool args.trimSpaces false
    enableSanitize := parseBool args.sanitize false
    maxLen := match args.maxLen with
      | none => some 0
      | some s => if s = "" then some 0 else parseIntJS s
    enableNormalize := parseBool args.normalize false
    enableCjkSpace := parseBool args.cjkSpace false
    includeKw := includeKw
    excludeKw := excludeKw
    rxInclude := toRegex args.regexInclude
    rxExclude := toRegex args.regexExclude
    onlyTypes := onlyTypesL.map jsToUpper
    dropTypes := dropTypesL.map jsToUpper
    dedupe := jsToLower (safeStr args.dedupe)
    sortBy := jsToLower (safeStr args.sortBy)
    sortOrder := jsToLower (orDefault args.sortOrder "asc")
    addFlag := parseBool args.addFlag false
    locLang := jsToLower (orDefault args.locLang "zh")
    fallbackFlag := fallbackFlag
    removeRegionName := parseBool args.removeRegionName false
    conflict := jsToLower (orDefault args.conflict "index")
    indexPad := match args.indexPad with
      | none => some 2
      | some s => if s = "" then some 2 else parseIntJS s
    hashLen := match args.hashLen with
      | none => some 4
      | some s => if s = "" then some 4 else parseIntJS s
    typeAbbr := applyMapPairs typeAbbrBase mapPairs
    userRegions := userRegions }

/-! ### The pipeline (source lines 378–454) -/

/-- Sanitize stage: `list.filter(p => p && typeof p === 'object')`. -/
def sanitizeEntries (l : List Entry) : List Proxy :=
  l.filterMap fun e => match e with | .obj p => some p | .nonObj => none

/-- Filter stage predicate (source lines 383–395). -/
def filterPred (cfg : Config) (p : Proxy) : Bool :=
  let type := jsToUpper (safeStr p.type)
  let name := safeStr p.name
  if cfg.onlyTypes ≠ [] && !(cfg.onlyTypes.contains type) then false
  else if cfg.dropTypes ≠ [] && cfg.dropTypes.contains type then false
  else if cfg.includeKw ≠ [] && !(cfg.includeKw.any (fun k => strIncludes name k)) then false
  else if cfg.excludeKw ≠ [] && cfg.excludeKw.any (fun k => strIncludes name k) then false
  else if (match cfg.rxInclude with | some r => !(reTest r name) | none => false) then false
  else if (match cfg.rxExclude with | some r => reTest r name | none => false) then false
  else true

/-- The `addr` string of the dedupe stage. -/
def addrOf (p : Proxy) : String :=
  safeStr p.server ++ ":" ++ safeStr p.port ++ ":" ++ jsToUpper (safeStr p.type)

/-- Dedupe key (source lines 405–409); `none` models the `else return true` arm. -/
def dedupeKey (cfg : Config) (p : Proxy) : Option String :=
  if cfg.dedupe = "addr" then some ("A|" ++ addrOf p)
  else if cfg.dedupe = "name" then some ("N|" ++ safeStr p.name)
  else if cfg.dedupe = "all" then some ("A|" ++ addrOf p ++ "|N|" ++ safeStr p.name)
  else none

/-- Dedupe stage walk, `seen` modelling the `Set`. -/
def dedupeStage (cfg : Config) : List Proxy → List String → List Proxy
  | [], _ => []
  | p :: rest, seen =>
    match dedupeKey cfg p with
    | none => p :: dedupeStage cfg rest seen
    | some k =>
      if seen.contains k then dedupeStage cfg rest seen
      else p :: dedupeStage cfg rest (k :: seen)

/-- Dedupe stage: runs only when `dedupe` is a non-empty string. -/
def dedupeRun (cfg : Config) (l : List Proxy) : List Proxy :=
  if cfg.dedupe ≠ "" then dedupeStage cfg l [] else l

/-- Sort key (`av`/`bv` of the comparator). -/
def sortKey (cfg : Config) (p : Proxy) : String :=
  if cfg.sortBy = "type" then jsToUpper (safeStr p.type) else safeStr p.name

/-- Sort stage; `lc` is the host `localeCompare`, stable sort per ES2019. -/
def sortRun (lc : String → String → Int) (cfg : Config) (l : List Proxy) : List Proxy :=
  if cfg.sortBy ≠ "" then
    l.mergeSort fun a b =>
      (let r := lc (sortKey cfg a) (sortKey cfg b)
       if cfg.sortOrder = "desc" then -r else r) ≤ 0
  else l

/-- Effective pad width `Math.max(2, indexPad)`; `none` (NaN) makes
`padStart(NaN)` a no-op, i.e. width 0. -/
def padWidth (cfg : Config) : Nat :=
  match cfg.indexPad with
  | none => 0
  | some n => (max 2 n).toNat

/-- Conflict-resolution walk (source lines 432–452); `cnt` models the `Map`. -/
def conflictStep (cfg : Config) : List Proxy → (String → Nat) → List Proxy
  | [], _ => []
  | p :: rest, cnt =>
    let name := safeStr p.name
    let c := cnt name + 1
    let cnt2 := fun n => if n = name then c else cnt n
    if c = 1 then p :: conflictStep cfg rest cnt2
    else if cfg.conflict = "drop" then conflictStep cfg rest cnt2
    else if cfg.conflict = "hash" then
      let h := generateHash
        (tmplStr p.server ++ ":" ++ tmplStr p.port ++ ":" ++ tmplStr p.type ++ ":" ++
          tmplStr p.name) cfg.hashLen
      { p with name := some (name ++ "-" ++ h) } :: conflictStep cfg rest cnt2
    else
      { p with name := some (name ++ " " ++ padStartZeros (toString c) (padWidth cfg)) } ::
        conflictStep cfg rest cnt2

/-- Conflict stage: runs unless `conflict` resolved to `"none"`. -/
def conflictRun (cfg : Config) (l : List Proxy) : List Proxy :=
  if cfg.conflict ≠ "none" then conflictStep cfg l (fun _ => 0) else l

/-- `Array.isArray(proxies) ? proxies.slice() : []` (source line 379). -/
def rawEntries : JSInput → List Entry
  | .arr es => es
  | .nonArray => []

/-- The exported `operator(proxies)`.  `lc` and `nfkc` are the host's
`localeCompare` and NFKC normalization; the result is `none` exactly when
option parsing threw (malformed percent-encoding outside `toRegex`'s
try/catch, or a failing `regionMap` regex compile). -/
def operator (lc : String → String → Int) (nfkc : String → String) (args : Args)
    (proxies : JSInput) : Option (List Proxy) := do
  let cfg ← parseConfig args
  let list1 := sanitizeEntries (rawEntries proxies)
  let list2 := list1.filter (filterPred cfg)
  let list3 := dedupeRun cfg list2
  let list4 := list3.map (processName nfkc cfg)
  let list5 := sortRun lc cfg list4
  some (conflictRun cfg list5)

/-! ### Concrete values used by the theorems -/

/-- A trivial host `localeCompare` (any comparator works for the claims below). -/
def lcZero : String → String → Int := fun _ _ => 0

/-- A trivial host NFKC normalization (never invoked while `normalize` is off). -/
def idNfkc : String → String := fun s => s

/-- The option map with every option absent. -/
def defaultArgs : Args := {}

/-- The configuration `parseConfig` produces for `defaultArgs`
(checked by `parseConfig_defaultArgs`). -/
def defaultCfg : Config where
  subName := ""
  useAbbr := true
  typeFmt := "bracket"
  typeCase := "upper"
  sep := " - "
  includeType := true
  pos := "before"
  template := ""
  keepUnknownType := "short"
  enableRemoveEmoji := false
  enableTrimSpaces := false
  enableSanitize := false
  maxLen := some 0
  enableNormalize := false
  enableCjkSpace := false
  includeKw := []
  excludeKw := []
  rxInclude := none
  rxExclude := none
  onlyTypes := []
  dropTypes := []
  dedupe := ""
  sortBy := ""
  sortOrder := "asc"
  addFlag := false
  locLang := "zh"
  fallbackFlag := "🏴‍☠️"
  removeRegionName := false
  conflict := "index"
  indexPad := some 2
  hashLen := some 4
  typeAbbr := typeAbbrBase
  userRegions := []

/-! ### Claim-side (spec-level) descriptions, used for the refinement claims -/

/-- Transcription of the claims' description of `conflict=index`: walking the
list with the names seen so far, the first occurrence of a name is retained
unmodified, and a repeat gets a space plus the occurrence counter zero-padded
to `pad` digits appended. -/
def idxRenamed (pad : Nat) (prevNames : List String) : List Proxy → List Proxy
  | [] => []
  | p :: rest =>
    let name := safeStr p.name
    let k := prevNames.count name + 1
    let p2 :=
      if k = 1 then p
      else { p with name := some (name ++ " " ++ padStartZeros (toString k) pad) }
    p2 :: idxRenamed pad (prevNames ++ [name]) rest

/-- Transcription of the claims' description of deduplication: keep a node iff
its key differs from the keys of all earlier nodes (first-wins, stable). -/
def firstPerKey (keyOf : Proxy → String) (prevKeys : List String) : List Proxy → List Proxy
  | [] => []
  | p :: rest =>
    if prevKeys.contains (keyOf p) then firstPerKey keyOf (prevKeys ++ [keyOf p]) rest
    else p :: firstPerKey keyOf (prevKeys ++ [keyOf p]) rest

/-- Transcription of the claims' hash description: unsigned 32-bit rolling hash,
seed 5381, `hash = hash*33 + charCode (mod 2^32)`, lowercase hex, keeping the
last `max(1, hashLen)` characters. -/
def specRollingHash (s : String) (hashLen : Int) : String :=
  let h := (utf16Units s).foldl (fun h c => (h * 33 + c) % 2 ^ 32) 5381
  lastChars (max 1 hashLen).toNat (natToHex h)

/-- The claim-side fold step over `Int`, for comparing against `hashStep`. -/
def intStep (a : Int) (c : Nat) : Int := (a * 33 + c) % 2 ^ 32

/-- Equality of every field other than `name` (`q` the output node, `p` the input). -/
def sameExceptName (p q : Proxy) : Prop :=
  q.type = p.type ∧ q.server = p.server ∧ q.port = p.port ∧ q.extra = p.extra

/-! ### Concrete fixtures for the claims -/

/-- A node whose name carries a United States region token. -/
def nodeUS : Proxy :=
  { type := some "ss", name := some "US-LosAngeles-01", server := some "1.2.3.4",
    port := some "443" }

/-- The option map `name=<P>&addFlag=on&locLang=zh`. -/
def argsC2 (P : String) : Args := { name := some P, addFlag := some "on", locLang := some "zh" }

/-- The configuration those options resolve to when the prefix decodes to `Q`. -/
def cfgC2 (Q : String) : Config := { defaultCfg with subName := Q, addFlag := true }

/-- Three nodes sharing the display name `HK` on distinct servers. -/
def hkNode1 : Proxy := { type := some "ss", name := some "HK", server := some "1" }

def hkNode2 : Proxy := { type := some "ss", name := some "HK", server := some "2" }

def hkNode3 : Proxy := { type := some "ss", name := some "HK", server := some "3" }

/-- A node whose literal name collides with an index-suffixed repeat. -/
def hkNode02 : Proxy := { type := some "ss", name := some "HK 02", server := some "4" }

/-- Two nodes sharing `server:port` whose types differ only in letter case. -/
def dupA : Proxy := { type := some "ss", name := some "a", server := some "s", port := some "1" }

def dupB : Proxy := { type := some "SS", name := some "b", server := some "s", port := some "1" }

/-! ### Helper lemmas: the rolling hash -/

theorem hashStep_emod (h : Int) (c : Nat) :
    hashStep h c % 2 ^ 32 = intStep (h % 2 ^ 32) c := by
  unfold hashStep jsShl5 toInt32 intStep; omega

theorem foldl_hashStep_emod (us : List Nat) (h : Int) :
    (us.foldl hashStep h) % 2 ^ 32 = us.foldl intStep (h % 2 ^ 32) := by
  induction us generalizing h with
  | nil => rfl
  | cons c us ih =>
    simp only [List.foldl_cons]
    rw [ih (hashStep h c), hashStep_emod]

theorem foldl_intStep_cast (us : List Nat) (m : Nat) :
    us.foldl intStep (m : Int) =
      ((us.foldl (fun a c => (a * 33 + c) % 2 ^ 32) m : Nat) : Int) := by
  induction us generalizing m with
  | nil => rfl
  | cons c us ih =>
    simp only [List.foldl_cons]
    rw [show intStep (m : Int) c = (((m * 33 + c) % 2 ^ 32 : Nat) : Int) by
      unfold intStep; push_cast; ring_nf]
    exact ih _

/-! ### Helper lemmas: configuration and the identity path -/

/-- Sanity: every one of the 51 built-in region patterns compiles in the regex
subset, so `builtInRegions` drops none of the source table's rules. -/
theorem builtInRegions_complete : builtInRegions.length = 51 := by rfl

theorem parseConfig_defaultArgs : parseConfig defaultArgs = some defaultCfg := by rfl

theorem filterPred_defaultCfg (p : Proxy) : filterPred defaultCfg p = true := rfl

theorem processName_defaultCfg (nfkc : String → String) (p : Proxy) :
    processName nfkc defaultCfg p = { p with name := some (safeStr p.name) } := rfl

/-! ### Helper lemmas: the conflict stage -/

theorem conflictStep_index (cfg : Config) (hc : cfg.conflict = "index") :
    ∀ (l : List Proxy) (cnt : String → Nat) (prev : List String),
      (∀ n, cnt n = prev.count n) →
      conflictStep cfg l cnt = idxRenamed (padWidth cfg) prev l
  | [], _, _, _ => rfl
  | p :: rest, cnt, prev, hcnt => by
    have hrec : ∀ n, (if n = safeStr p.name then cnt (safeStr p.name) + 1 else cnt n) =
        (prev ++ [safeStr p.name]).count n := by
      intro n
      by_cases h : n = safeStr p.name
      · subst h
        simp [List.count_append, List.count_cons, hcnt]
      · simp [h, List.count_append, List.count_cons, hcnt n]
    have ih := conflictStep_index cfg hc rest
      (fun n => if n = safeStr p.name then cnt (safeStr p.name) + 1 else cnt n)
      (prev ++ [safeStr p.name]) hrec
    simp only [conflictStep, idxRenamed, hcnt (safeStr p.name), hc] at ih ⊢
    by_cases h1 : (prev.count (safeStr p.name)) + 1 = 1
    · rw [if_pos h1, if_pos h1, ih]
    · rw [if_neg h1, if_neg h1, if_neg (show ¬("index" : String) = "drop" by decide),
        if_neg (show ¬("index" : String) = "hash" by decide), ih]

theorem conflictStep_distinct (cfg : Config) :
    ∀ (l : List Proxy) (cnt : String → Nat),
      (∀ p ∈ l, cnt (safeStr p.name) = 0) →
      (l.map fun p => safeStr p.name).Nodup →
      conflictStep cfg l cnt = l
  | [], _, _, _ => rfl
  | p :: rest, cnt, h0, hd => by
    have h1 : cnt (safeStr p.name) = 0 := h0 p (List.mem_cons_self _ _)
    rw [List.map_cons, List.nodup_cons] at hd
    obtain ⟨hnotin, hdrest⟩ := hd
    simp only [conflictStep, h1]
    rw [if_pos trivial]
    congr 1
    apply conflictStep_distinct cfg rest
    · intro q hq
      have hne : safeStr q.name ≠ safeStr p.name := by
        intro hEq
        exact hnotin (hEq ▸ List.mem_map_of_mem _ hq)
      simp only [if_neg hne]
      exact h0 q (List.mem_cons_of_mem _ hq)
    · exact hdrest

theorem map_processName_default (nfkc : String → String) :
    ∀ (ps : List Proxy), (∀ p ∈ ps, ∃ s, p.name = some s) →
      ps.map (processName nfkc defaultCfg) = ps
  | [], _ => rfl
  | p :: rest, h => by
    obtain ⟨s, hs⟩ := h p (List.mem_cons_self _ _)
    rw [List.map_cons, processName_defaultCfg,
      map_processName_default nfkc rest (fun q hq => h q (List.mem_cons_of_mem _ hq))]
    congr 1
    cases p
    simp_all [safeStr]

theorem sanitizeEntries_map_obj (ps : List Proxy) : sanitizeEntries (ps.map .obj) = ps := by
  induction ps with
  | nil => rfl
  | cons p rest ih => simp [sanitizeEntries, List.filterMap_cons] at ih ⊢; exact ih

/-! ### Helper lemmas: the dedupe stage -/

theorem contains_eq_true_iff (l : List String) (k : String) : l.contains k = true ↔ k ∈ l :=
  List.elem_iff

theorem dedupeStage_eq_firstPerKey (cfg : Config) (keyOf : Proxy → String)
    (hkey : ∀ p, dedupeKey cfg p = some (keyOf p)) :
    ∀ (l : List Proxy) (seen prev : List String), (∀ k, k ∈ seen ↔ k ∈ prev) →
      dedupeStage cfg l seen = firstPerKey keyOf prev l
  | [], _, _, _ => rfl
  | p :: rest, seen, prev, hiff => by
    have hcon : seen.contains (keyOf p) = prev.contains (keyOf p) := by
      by_cases h : keyOf p ∈ prev
      · rw [(contains_eq_true_iff seen _).mpr ((hiff _).mpr h),
          (contains_eq_true_iff prev _).mpr h]
      · rw [Bool.eq_false_iff.mpr (fun hk => h ((hiff _).mp ((contains_eq_true_iff seen _).mp hk))),
          Bool.eq_false_iff.mpr (fun hk => h ((contains_eq_true_iff prev _).mp hk))]
    simp only [dedupeStage, firstPerKey, hkey p, hcon]
    by_cases hb : prev.contains (keyOf p) = true
    · rw [if_pos hb, if_pos hb]
      exact dedupeStage_eq_firstPerKey cfg keyOf hkey rest seen (prev ++ [keyOf p])
        (fun k => by
          constructor
          · exact fun hk => List.mem_append_left _ ((hiff k).mp hk)
          · intro hk
            rcases List.mem_append.mp hk with h | h
            · exact (hiff k).mpr h
            · rw [List.mem_singleton.mp h]
              exact (hiff _).mpr ((contains_eq_true_iff prev _).mp hb))
    · rw [if_neg hb, if_neg hb]
      congr 1
      exact dedupeStage_eq_firstPerKey cfg keyOf hkey rest (keyOf p :: seen) (prev ++ [keyOf p])
        (fun k => by
          rw [List.mem_cons, List.mem_append, List.mem_singleton, hiff k]
          tauto)

theorem dedupeStage_sublist (cfg : Config) :
    ∀ (l : List Proxy) (seen : List String), (dedupeStage cfg l seen).Sublist l
  | [], _ => .slnil
  | p :: rest, seen => by
    unfold dedupeStage
    split
    · exact (dedupeStage_sublist cfg rest seen).cons₂ _
    · split
      · exact (dedupeStage_sublist cfg rest seen).cons _
      · exact (dedupeStage_sublist cfg rest _).cons₂ _

theorem dedupeRun_sublist (cfg : Config) (l : List Proxy) : (dedupeRun cfg l).Sublist l := by
  unfold dedupeRun
  by_cases h : cfg.dedupe ≠ ""
  · rw [if_pos h]; exact dedupeStage_sublist cfg l []
  · rw [if_neg h]

theorem mem_firstPerKey (keyOf : Proxy → String) :
    ∀ (l : List Proxy) (prev : List String) (q : Proxy),
      q ∈ firstPerKey keyOf prev l → keyOf q ∉ prev
  | [], _, _, hq => absurd hq (List.not_mem_nil _)
  | p :: rest, prev, q, hq => by
    unfold firstPerKey at hq
    by_cases hb : prev.contains (keyOf p) = true
    · rw [if_pos hb] at hq
      exact fun hk => mem_firstPerKey keyOf rest (prev ++ [keyOf p]) q hq
        (List.mem_append_left _ hk)
    · rw [if_neg hb] at hq
      rcases List.mem_cons.mp hq with h | h
      · subst h
        exact fun hk => hb (List.elem_iff.mpr hk)
      · exact fun hk => mem_firstPerKey keyOf rest (prev ++ [keyOf p]) q h
          (List.mem_append_left _ hk)

theorem firstPerKey_pairwise (keyOf : Proxy → String) :
    ∀ (l : List Proxy) (prev : List String),
      (firstPerKey keyOf prev l).Pairwise (fun a b => keyOf a ≠ keyOf b)
  | [], _ => List.Pairwise.nil
  | p :: rest, prev => by
    unfold firstPerKey
    by_cases hb : prev.contains (keyOf p) = true
    · rw [if_pos hb]
      exact firstPerKey_pairwise keyOf rest _
    · rw [if_neg hb]
      refine List.Pairwise.cons (fun b hbmem hEq => ?_) (firstPerKey_pairwise keyOf rest _)
      exact mem_firstPerKey keyOf rest (prev ++ [keyOf p]) b hbmem
        (List.mem_append_right _ (by rw [← hEq]; exact List.mem_singleton_self _))

theorem firstPerKey_sublist (keyOf : Proxy → String) :
    ∀ (l : List Proxy) (prev : List String), (firstPerKey keyOf prev l).Sublist l
  | [], _ => .slnil
  | p :: rest, prev => by
    unfold firstPerKey
    by_cases hb : prev.contains (keyOf p) = true
    · rw [if_pos hb]; exact (firstPerKey_sublist keyOf rest _).cons _
    · rw [if_neg hb]; exact (firstPerKey_sublist keyOf rest _).cons₂ _

/-! ### Helper lemmas: conflict/sort stages preserve the address triple -/

theorem conflictStep_addr_sublist (cfg : Config) :
    ∀ (l : List Proxy) (cnt : String → Nat),
      ((conflictStep cfg l cnt).map addrOf).Sublist (l.map addrOf)
  | [], _ => .slnil
  | p :: rest, cnt => by
    simp only [conflictStep]
    by_cases h1 : cnt (safeStr p.name) + 1 = 1
    · rw [if_pos h1]
      simp only [List.map_cons]
      exact (conflictStep_addr_sublist cfg rest _).cons₂ _
    · rw [if_neg h1]
      by_cases h2 : cfg.conflict = "drop"
      · rw [if_pos h2]
        exact (conflictStep_addr_sublist cfg rest _).cons _
      · rw [if_neg h2]
        by_cases h3 : cfg.conflict = "hash"
        · rw [if_pos h3]
          simp only [List.map_cons]
          exact (conflictStep_addr_sublist cfg rest _).cons₂ _
        · rw [if_neg h3]
          simp only [List.map_cons]
          exact (conflictStep_addr_sublist cfg rest _).cons₂ _

theorem conflictRun_addr_sublist (cfg : Config) (l : List Proxy) :
    ((conflictRun cfg l).map addrOf).Sublist (l.map addrOf) := by
  unfold conflictRun
  by_cases h : cfg.conflict ≠ "none"
  · rw [if_pos h]; exact conflictStep_addr_sublist cfg l _
  · rw [if_neg h]

theorem sortRun_perm (lc : String → String → Int) (cfg : Config) (l : List Proxy) :
    (sortRun lc cfg l).Perm l := by
  unfold sortRun
  by_cases h : cfg.sortBy ≠ ""
  · rw [if_pos h]; exact List.mergeSort_perm l _
  · rw [if_neg h]

theorem parseConfig_dedupe {args : Args} {cfg : Config} (h : parseConfig args = some cfg) :
    cfg.dedupe = jsToLower (safeStr args.dedupe) := by
  unfold parseConfig at h
  obtain ⟨a1, -, h⟩ := Option.bind_eq_some.mp h
  obtain ⟨a2, -, h⟩ := Option.bind_eq_some.mp h
  obtain ⟨a3, -, h⟩ := Option.bind_eq_some.mp h
  obtain ⟨a4, -, h⟩ := Option.bind_eq_some.mp h
  obtain ⟨a5, -, h⟩ := Option.bind_eq_some.mp h
  obtain ⟨a6, -, h⟩ := Option.bind_eq_some.mp h
  obtain ⟨a7, -, h⟩ := Option.bind_eq_some.mp h
  obtain ⟨a8, -, h⟩ := Option.bind_eq_some.mp h
  obtain ⟨a9, -, h⟩ := Option.bind_eq_some.mp h
  obtain ⟨a10, -, h⟩ := Option.bind_eq_some.mp h
  obtain ⟨a11, -, h⟩ := Option.bind_eq_some.mp h
  cases h
  rfl

/-! ### Helper lemmas: frame condition -/

theorem sameExceptName_refl (p : Proxy) : sameExceptName p p := ⟨rfl, rfl, rfl, rfl⟩

theorem sameExceptName_trans {p q r : Proxy} (h1 : sameExceptName p q)
    (h2 : sameExceptName q r) : sameExceptName p r :=
  ⟨h2.1.trans h1.1, h2.2.1.trans h1.2.1, h2.2.2.1.trans h1.2.2.1, h2.2.2.2.trans h1.2.2.2⟩

theorem processName_sameExceptName (nfkc : String → String) (cfg : Config) (p : Proxy) :
    sameExceptName p (processName nfkc cfg p) := ⟨rfl, rfl, rfl, rfl⟩

theorem conflictStep_mem (cfg : Config) :
    ∀ (l : List Proxy) (cnt : String → Nat) (q : Proxy),
      q ∈ conflictStep cfg l cnt → ∃ p ∈ l, sameExceptName p q
  | [], _, q, hq => absurd hq (List.not_mem_nil _)
  | p :: rest, cnt, q, hq => by
    simp only [conflictStep] at hq
    by_cases h1 : cnt (safeStr p.name) + 1 = 1
    · rw [if_pos h1] at hq
      rcases List.mem_cons.mp hq with h | h
      · exact ⟨p, List.mem_cons_self _ _, by rw [h]; exact sameExceptName_refl p⟩
      · obtain ⟨r, hr, hs⟩ := conflictStep_mem cfg rest _ q h
        exact ⟨r, List.mem_cons_of_mem _ hr, hs⟩
    · rw [if_neg h1] at hq
      by_cases h2 : cfg.conflict = "drop"
      · rw [if_pos h2] at hq
        obtain ⟨r, hr, hs⟩ := conflictStep_mem cfg rest _ q hq
        exact ⟨r, List.mem_cons_of_mem _ hr, hs⟩
      · rw [if_neg h2] at hq
        by_cases h3 : cfg.conflict = "hash"
        · rw [if_pos h3] at hq
          rcases List.mem_cons.mp hq with h | h
          · exact ⟨p, List.mem_cons_self _ _, by rw [h]; exact ⟨rfl, rfl, rfl, rfl⟩⟩
          · obtain ⟨r, hr, hs⟩ := conflictStep_mem cfg rest _ q h
            exact ⟨r, List.mem_cons_of_mem _ hr, hs⟩
        · rw [if_neg h3] at hq
          rcases List.mem_cons.mp hq with h | h
          · exact ⟨p, List.mem_cons_self _ _, by rw [h]; exact ⟨rfl, rfl, rfl, rfl⟩⟩
          · obtain ⟨r, hr, hs⟩ := conflictStep_mem cfg rest _ q h
            exact ⟨r, List.mem_cons_of_mem _ hr, hs⟩

theorem conflictRun_mem (cfg : Config) (l : List Proxy) (q : Proxy)
    (hq : q ∈ conflictRun cfg l) : ∃ p ∈ l, sameExceptName p q := by
  unfold conflictRun at hq
  by_cases h : cfg.conflict ≠ "none"
  · rw [if_pos h] at hq
    exact conflictStep_mem cfg l _ q hq
  · rw [if_neg h] at hq
    exact ⟨q, hq, sameExceptName_refl q⟩

theorem operator_some_elim {lc : String → String → Int} {nfkc : String → String}
    {args : Args} {proxies : JSInput} {out : List Proxy}
    (h : operator lc nfkc args proxies = some out) :
    ∃ cfg, parseConfig args = some cfg ∧
      out = conflictRun cfg (sortRun lc cfg
        ((dedupeRun cfg ((sanitizeEntries (rawEntries proxies)).filter (filterPred cfg))).map
          (processName nfkc cfg))) := by
  unfold operator at h
  obtain ⟨cfg, hcfg, h⟩ := Option.bind_eq_some.mp h
  exact ⟨cfg, hcfg, (Option.some_inj.mp h).symm⟩

/-! ### Helper lemmas: the `addFlag`-with-prefix path -/

theorem parseConfig_argsC2 (P Q : String) (hP : P ≠ "") (hdec : decodeURI P = some Q) :
    parseConfig (argsC2 P) = some (cfgC2 Q) := by
  have h1 : decodeName (argsC2 P) = some Q := by
    show (if P = "" then decodeSubAlt (argsC2 P) else decodeURI P) = some Q
    rw [if_neg hP, hdec]
  unfold parseConfig
  rw [h1]
  rfl

theorem processName_cfgC2 (nfkc : String → String) (Q : String) (hQ : Q ≠ "") :
    processName nfkc (cfgC2 Q) nodeUS =
      { nodeUS with name := some (String.intercalate " - "
          ["🇺🇸 美国", Q, "[SS]", "US-LosAngeles-01"]) } := by
  have hreg : buildRegionStr (cfgC2 Q) (safeStr nodeUS.name) = "🇺🇸 美国" := rfl
  have htype : buildTypeDisplay (cfgC2 Q) (jsToUpper (safeStr nodeUS.type)) = "[SS]" := rfl
  have hclean : cleanRegionFromName (cfgC2 Q) (safeStr nodeUS.name) = "US-LosAngeles-01" := rfl
  have h1 : (cfgC2 Q).addFlag = true := rfl
  have h2 : (cfgC2 Q).template = "" := rfl
  have h3 : (cfgC2 Q).subName = Q := rfl
  have h4 : (cfgC2 Q).sep = " - " := rfl
  have h5 : (cfgC2 Q).pos = "before" := rfl
  have h6 : (cfgC2 Q).includeType = true := rfl
  have h7 : (cfgC2 Q).maxLen = some 0 := rfl
  have h8 : (cfgC2 Q).enableRemoveEmoji = false := rfl
  have h9 : (cfgC2 Q).enableSanitize = false := rfl
  have h10 : (cfgC2 Q).enableTrimSpaces = false := rfl
  have h11 : (cfgC2 Q).enableNormalize = false := rfl
  have h12 : (cfgC2 Q).enableCjkSpace = false := rfl
  simp [processName, h1, h2, h3, h4, h5, h6, h7, h8, h9, h10, h11, h12,
    hreg, htype, hclean, hQ]

/-! ### Helper lemmas: empty-list behaviour of the stages -/
theorem dedupeRun_nil (cfg : Config) : dedupeRun cfg [] = [] := by
  unfold dedupeRun
  by_cases h : cfg.dedupe ≠ ""
  · rw [if_pos h]; rfl
  · rw [if_neg h]

theorem sortRun_nil (lc : String → String → Int) (cfg : Config) : sortRun lc cfg [] = [] := by
  unfold sortRun
  by_cases h : cfg.sortBy ≠ ""
  · rw [if_pos h]; simp
  · rw [if_neg h]

theorem conflictRun_nil (cfg : Config) : conflictRun cfg [] = [] := by
  unfold conflictRun
  by_cases h : cfg.conflict ≠ "none"
  · rw [if_pos h]; rfl
  · rw [if_neg h]
/-! ### C1 -/

/-- C1 counterexample: a malformed percent-encoding in the `name` option makes the
unguarded `decodeURI` at source line 71 throw a `URIError`, so `operator` does not
return a list even though the node list is well-formed. -/
theorem operator_malformed_percent_throws :
    operator lcZero idNfkc { name := some "%" } (.arr [.obj nodeUS]) = none := by rfl

/-- C1 (amended): `operator` returns a list whenever option parsing succeeds, i.e.
whenever every percent-encoded option value is well-formed and every `regionMap`
pattern compiles; unparsable `regexInclude`/`regexExclude` and non-numeric
integer options still degrade silently rather than fault. -/
theorem operator_no_fault_when_options_decode (lc : String → String → Int)
    (nfkc : String → String) (args : Args) (proxies : JSInput) (cfg : Config)
    (h : parseConfig args = some cfg) :
    ∃ out, operator lc nfkc args proxies = some out := by
  unfold operator
  rw [h]
  exact ⟨_, rfl⟩

/-- C1 witness: with an unparsable `regexInclude` and non-numeric integer options,
option parsing still succeeds and `operator` still returns a list. -/
theorem operator_no_fault_when_options_decode_witness :
    ∃ out, operator lcZero idNfkc
      { regexInclude := some "(", maxLen := some "abc", indexPad := some "zz",
        hashLen := some "q" } (.arr [.obj nodeUS]) = some out :=
  operator_no_fault_when_options_decode lcZero idNfkc _ _ _ (by rfl)
/-! ### C2 -/

/-- C2 counterexample: with `addFlag=on&locLang=zh` and no prefix/template, the
inner `if (template) ... else if (subName)` of `processName` takes neither branch,
so the name passes through unchanged and contains no `🇺🇸 美国` region segment. -/
theorem addFlag_alone_keeps_name_unchanged :
    operator lcZero idNfkc { addFlag := some "on", locLang := some "zh" }
        (.arr [.obj nodeUS]) = some [nodeUS] ∧
    strIncludes (safeStr nodeUS.name) "🇺🇸 美国" = false := ⟨by rfl, by rfl⟩

/-- C2 (amended): with additionally a non-empty prefix `name=P` configured (as in
the script's own usage example `name=MySub&addFlag=on&locLang=zh`), the node named
`US-LosAngeles-01` yields an output name containing the region segment `🇺🇸 美国`. -/
theorem addFlag_with_prefix_adds_region_segment (lc : String → String → Int)
    (nfkc : String → String) (P Q : String) (hP : P ≠ "") (hdec : decodeURI P = some Q)
    (hQ : Q ≠ "") :
    (operator lc nfkc (argsC2 P) (.arr [.obj nodeUS])).map
      (·.map fun p => strIncludes (safeStr p.name) "🇺🇸 美国") = some [true] := by
  unfold operator
  rw [parseConfig_argsC2 P Q hP hdec]
  show (some (conflictRun (cfgC2 Q) (sortRun lc (cfgC2 Q)
      ((dedupeRun (cfgC2 Q) ((sanitizeEntries (rawEntries (.arr [.obj nodeUS]))).filter
        (filterPred (cfgC2 Q)))).map (processName nfkc (cfgC2 Q)))))).map
      (·.map fun p => strIncludes (safeStr p.name) "🇺🇸 美国") = some [true]
  rw [show (sanitizeEntries (rawEntries (.arr [.obj nodeUS]))).filter (filterPred (cfgC2 Q)) =
    [nodeUS] from rfl]
  rw [show dedupeRun (cfgC2 Q) [nodeUS] = [nodeUS] from rfl]
  rw [List.map_singleton, processName_cfgC2 nfkc Q hQ]
  rw [show ∀ l, sortRun lc (cfgC2 Q) l = l from fun l => rfl]
  rw [show ∀ p, conflictRun (cfgC2 Q) [p] = [p] from fun p => rfl]
  rfl

/-- C2 witness: the usage-example prefix `MySub`. -/
theorem addFlag_with_prefix_adds_region_segment_witness :
    (operator lcZero idNfkc (argsC2 "MySub") (.arr [.obj nodeUS])).map
      (·.map fun p => strIncludes (safeStr p.name) "🇺🇸 美国") = some [true] :=
  addFlag_with_prefix_adds_region_segment lcZero idNfkc "MySub" "MySub" (by decide) rfl
    (by decide)

/-! ### C3 -/

/-- C3 counterexample: with every option at its default, the default
`conflict=index` stage still renames the second of two nodes that share the name
`HK`, so the identity law fails for input lists with duplicate names. -/
theorem default_options_rename_duplicate :
    operator lcZero idNfkc defaultArgs (.arr [.obj hkNode1, .obj hkNode2]) =
      some [hkNode1, { hkNode2 with name := some "HK 02" }] ∧
    some "HK 02" ≠ hkNode2.name := ⟨by rfl, by decide⟩

/-- C3 (amended): with every option at its default, the pipeline is the identity
on every list of node records that carry string names which are pairwise
distinct (distinctness is forced by the default `conflict=index` stage). -/
theorem default_options_identity_on_distinct_names (lc : String → String → Int)
    (nfkc : String → String) (ps : List Proxy)
    (hn : ∀ p ∈ ps, ∃ s, p.name = some s)
    (hd : (ps.map fun p => safeStr p.name).Nodup) :
    operator lc nfkc defaultArgs (.arr (ps.map .obj)) = some ps := by
  unfold operator
  rw [parseConfig_defaultArgs]
  show some (conflictRun defaultCfg (sortRun lc defaultCfg
    ((dedupeRun defaultCfg ((sanitizeEntries ((ps.map .obj))).filter (filterPred defaultCfg))).map
      (processName nfkc defaultCfg)))) = some ps
  rw [sanitizeEntries_map_obj]
  rw [List.filter_eq_self.mpr (fun p _ => filterPred_defaultCfg p)]
  rw [show dedupeRun defaultCfg ps = ps from rfl]
  rw [map_processName_default nfkc ps hn]
  rw [show sortRun lc defaultCfg ps = ps from rfl]
  rw [show conflictRun defaultCfg ps = conflictStep defaultCfg ps (fun _ => 0) from rfl]
  rw [conflictStep_distinct defaultCfg ps (fun _ => 0) (fun _ _ => rfl) hd]

/-- C3 witness: two distinctly named nodes pass through unchanged. -/
theorem default_options_identity_on_distinct_names_witness :
    operator lcZero idNfkc defaultArgs (.arr ([hkNode1, nodeUS].map .obj)) =
      some [hkNode1, nodeUS] :=
  default_options_identity_on_distinct_names lcZero idNfkc [hkNode1, nodeUS]
    (by
      intro p hp
      simp only [List.mem_cons, List.not_mem_nil, or_false] at hp
      rcases hp with rfl | rfl
      · exact ⟨"HK", rfl⟩
      · exact ⟨"US-LosAngeles-01", rfl⟩)
    (by decide)
/-! ### C4 -/

/-- C4: with `conflict=index&indexPad=2`, three nodes named `HK` come out as
`HK`, `HK 02`, `HK 03` in their original relative order; and in general, for
`conflict=index` with a numeric `indexPad`, the conflict stage keeps the first
occurrence of each name unmodified and appends a space plus the occurrence
counter zero-padded to `max(2, indexPad)` digits to every repeat (`idxRenamed`
transcribes that description). -/
theorem conflict_index_numbering :
    (operator lcZero idNfkc { conflict := some "index", indexPad := some "2" }
        (.arr [.obj hkNode1, .obj hkNode2, .obj hkNode3]) =
      some [hkNode1, { hkNode2 with name := some "HK 02" },
        { hkNode3 with name := some "HK 03" }]) ∧
    (∀ (cfg : Config) (n : Int) (l : List Proxy),
      cfg.conflict = "index" → cfg.indexPad = some n →
      conflictRun cfg l = idxRenamed ((max 2 n).toNat) [] l) := by
  refine ⟨by rfl, ?_⟩
  intro cfg n l h1 h2
  have hpad : padWidth cfg = (max 2 n).toNat := by rw [padWidth, h2]
  rw [← hpad]
  unfold conflictRun
  rw [h1, if_pos (by decide)]
  exact conflictStep_index cfg h1 l (fun _ => 0) [] (fun _ => rfl)

/-- C4 witness: the general description applied to a concrete two-node list. -/
theorem conflict_index_numbering_witness :
    conflictRun defaultCfg [hkNode1, hkNode2] =
      idxRenamed ((max 2 (2 : Int)).toNat) [] [hkNode1, hkNode2] :=
  conflict_index_numbering.2 defaultCfg 2 [hkNode1, hkNode2] rfl rfl

/-! ### C5 -/

/-- C5: `generateHash` — the exact JS computation, `((hash << 5) + hash) + code`
through `ToInt32` with the final `>>> 0` — equals the claim's description: an
unsigned 32-bit rolling hash seeded at 5381, updated `hash = hash*33 + charCode`
mod 2^32 over the UTF-16 code units, rendered as lowercase hex and truncated to
its last `max(1, hashLen)` characters.  Both sides are pure functions of the
input string, so identical inputs always produce identical hash suffixes. -/
theorem generateHash_matches_spec (s : String) (n : Int) :
    generateHash s (some n) = specRollingHash s n := by
  simp only [generateHash, specRollingHash, toUint32]
  rw [foldl_hashStep_emod]
  rw [show ((5381 : Int) % 2 ^ 32 = ((5381 : Nat) : Int)) by norm_num]
  rw [foldl_intStep_cast]
  rw [Int.toNat_natCast]
/-! ### C6 -/

/-- C6: with `dedupe=addr`, (1) no two nodes of the final output share an
identical `server:port:type` triple; (2) the dedupe stage equals the first-wins
keep-first-per-key description `firstPerKey`; (3) the dedupe stage is a sublist
of its input, preserving the survivors' relative order. -/
theorem dedupe_addr_unique_triples :
    (∀ (lc : String → String → Int) (nfkc : String → String) (args : Args)
        (proxies : JSInput) (out : List Proxy),
      args.dedupe = some "addr" → operator lc nfkc args proxies = some out →
      out.Pairwise (fun a b => ¬(a.server = b.server ∧ a.port = b.port ∧ a.type = b.type))) ∧
    (∀ (cfg : Config) (l : List Proxy), cfg.dedupe = "addr" →
      dedupeRun cfg l = firstPerKey (fun p => "A|" ++ addrOf p) [] l) ∧
    (∀ (cfg : Config) (l : List Proxy), (dedupeRun cfg l).Sublist l) := by
  have hkey : ∀ (cfg : Config), cfg.dedupe = "addr" →
      ∀ p, dedupeKey cfg p = some ("A|" ++ addrOf p) := by
    intro cfg hded p
    unfold dedupeKey
    rw [hded, if_pos rfl]
  have hstage : ∀ (cfg : Config) (l : List Proxy), cfg.dedupe = "addr" →
      dedupeRun cfg l = firstPerKey (fun p => "A|" ++ addrOf p) [] l := by
    intro cfg l hded
    unfold dedupeRun
    rw [hded, if_pos (by decide)]
    exact dedupeStage_eq_firstPerKey cfg _ (hkey cfg hded) l [] [] (fun _ => Iff.rfl)
  refine ⟨?_, hstage, fun cfg l => dedupeRun_sublist cfg l⟩
  intro lc nfkc args proxies out hargs hop
  obtain ⟨cfg, hcfg, rfl⟩ := operator_some_elim hop
  have hded : cfg.dedupe = "addr" := by
    rw [parseConfig_dedupe hcfg, hargs]
    rfl
  have hpw3 : (dedupeRun cfg ((sanitizeEntries (rawEntries proxies)).filter
      (filterPred cfg))).Pairwise (fun a b => addrOf a ≠ addrOf b) := by
    rw [hstage cfg _ hded]
    exact (firstPerKey_pairwise _ _ []).imp (fun h hEq => h (by rw [hEq]))
  have hpw4 : (((dedupeRun cfg ((sanitizeEntries (rawEntries proxies)).filter
      (filterPred cfg))).map (processName nfkc cfg)).map addrOf).Pairwise Ne := by
    rw [List.map_map, show addrOf ∘ processName nfkc cfg = addrOf from funext fun p => rfl]
    exact List.pairwise_map.mpr hpw3
  have hpw5 : ((sortRun lc cfg ((dedupeRun cfg ((sanitizeEntries (rawEntries proxies)).filter
      (filterPred cfg))).map (processName nfkc cfg))).map addrOf).Pairwise Ne :=
    (((sortRun_perm lc cfg _).map addrOf).pairwise_iff (fun h => h.symm)).mpr hpw4
  have hpw6 := List.Pairwise.sublist (conflictRun_addr_sublist cfg _) hpw5
  exact (List.pairwise_map.mp hpw6).imp
    (fun h htr => h (by simp [addrOf, htr.1, htr.2.1, htr.2.2]))

/-- C6 witness: two same-address nodes (types differing only in case) collapse
to the first, and the stage equals the first-wins description. -/
theorem dedupe_addr_unique_triples_witness :
    ([dupA] : List Proxy).Pairwise
      (fun a b => ¬(a.server = b.server ∧ a.port = b.port ∧ a.type = b.type)) ∧
    dedupeRun { defaultCfg with dedupe := "addr" } [dupA, dupB] =
      firstPerKey (fun p => "A|" ++ addrOf p) [] [dupA, dupB] :=
  ⟨dedupe_addr_unique_triples.1 lcZero idNfkc { dedupe := some "addr" }
      (.arr [.obj dupA, .obj dupB]) [dupA] rfl (by rfl),
   dedupe_addr_unique_triples.2.1 { defaultCfg with dedupe := "addr" } [dupA, dupB] rfl⟩
/-! ### C7 -/

/-- C7: every node of the output corresponds to a node record of the input whose
`type`, `server`, `port` and passthrough fields it carries verbatim — only
`name` is ever rewritten, and nodes are only ever removed whole. -/
theorem operator_preserves_non_name_fields (lc : String → String → Int)
    (nfkc : String → String) (args : Args) (proxies : JSInput) (out : List Proxy)
    (hop : operator lc nfkc args proxies = some out) :
    ∀ q ∈ out, ∃ p ∈ sanitizeEntries (rawEntries proxies), sameExceptName p q := by
  obtain ⟨cfg, hcfg, rfl⟩ := operator_some_elim hop
  intro q hq
  obtain ⟨q5, hq5, hs5⟩ := conflictRun_mem cfg _ q hq
  have hq4 := (sortRun_perm lc cfg _).mem_iff.mp hq5
  obtain ⟨q3, hq3, rfl⟩ := List.mem_map.mp hq4
  have hs3 : sameExceptName q3 q := sameExceptName_trans (processName_sameExceptName nfkc cfg q3) hs5
  have hq2 := (dedupeRun_sublist cfg _).subset hq3
  exact ⟨q3, List.mem_of_mem_filter hq2, hs3⟩

/-- C7 witness: a concrete renaming run, instantiated at its single output node. -/
theorem operator_preserves_non_name_fields_witness :
    ∃ p ∈ sanitizeEntries (rawEntries (.arr [.obj nodeUS])),
      sameExceptName p { nodeUS with name := some "🇺🇸 美国 - MySub - [SS] - US-LosAngeles-01" } :=
  operator_preserves_non_name_fields lcZero idNfkc (argsC2 "MySub") (.arr [.obj nodeUS])
    [{ nodeUS with name := some "🇺🇸 美国 - MySub - [SS] - US-LosAngeles-01" }] (by rfl)
    _ (List.mem_singleton_self _)

/-! ### C8 -/

/-- C8: `conflict=index` (the default) does not guarantee pairwise-distinct
output names: on input names `HK`, `HK`, `HK 02` the suffixed second node and the
untouched third node both come out named `HK 02`. -/
theorem conflict_index_name_collision :
    operator lcZero idNfkc defaultArgs (.arr [.obj hkNode1, .obj hkNode2, .obj hkNode02]) =
      some [hkNode1, { hkNode2 with name := some "HK 02" }, hkNode02] ∧
    ({ hkNode2 with name := some "HK 02" } : Proxy).name = hkNode02.name :=
  ⟨by rfl, by rfl⟩

/-! ### C9 -/

/-- C9: a non-array `proxies` argument yields the empty list (no error), for any
option map whose parsing succeeds. -/
theorem non_array_input_empty_output (lc : String → String → Int)
    (nfkc : String → String) (args : Args) (cfg : Config)
    (h : parseConfig args = some cfg) :
    operator lc nfkc args .nonArray = some [] := by
  unfold operator
  rw [h]
  show some (conflictRun cfg (sortRun lc cfg
    ((dedupeRun cfg ((sanitizeEntries (rawEntries .nonArray)).filter (filterPred cfg))).map
      (processName nfkc cfg)))) = some []
  rw [show (sanitizeEntries (rawEntries .nonArray)).filter (filterPred cfg) = [] from rfl]
  rw [dedupeRun_nil, List.map_nil, sortRun_nil, conflictRun_nil]

/-- C9 witness: the default option map on a non-array input. -/
theorem non_array_input_empty_output_witness :
    operator lcZero idNfkc defaultArgs .nonArray = some [] :=
  non_array_input_empty_output lcZero idNfkc defaultArgs defaultCfg (by rfl)

/-! ### C10 -/

/-- C10: protocol-type comparison is case-insensitive wherever the pipeline uses
it — nodes whose types agree after uppercasing are treated identically by the
`onlyTypes`/`dropTypes` filter (given equal names), produce the same
`dedupe=addr` key (given equal server and port, hence count as duplicates), and
share the `sortBy=type` sort key. -/
theorem type_comparisons_case_insensitive (cfg : Config) (p q : Proxy)
    (htype : jsToUpper (safeStr p.type) = jsToUpper (safeStr q.type)) :
    (safeStr p.name = safeStr q.name → filterPred cfg p = filterPred cfg q) ∧
    (cfg.dedupe = "addr" → safeStr p.server = safeStr q.server →
      safeStr p.port = safeStr q.port → dedupeKey cfg p = dedupeKey cfg q) ∧
    (cfg.sortBy = "type" → sortKey cfg p = sortKey cfg q) := by
  refine ⟨?_, ?_, ?_⟩
  · intro hname
    simp only [filterPred]
    rw [htype, hname]
  · intro hded hserver hport
    simp only [dedupeKey, addrOf]
    rw [htype, hserver, hport, hded, if_pos rfl, if_pos rfl]
  · intro hsort
    simp only [sortKey]
    rw [hsort, htype, if_pos rfl, if_pos rfl]

/-- C10 witness: types `ss` and `SS` on the same address. -/
theorem type_comparisons_case_insensitive_witness :
    filterPred { defaultCfg with onlyTypes := ["SS"] } dupA =
      filterPred { defaultCfg with onlyTypes := ["SS"] }
        { dupB with name := some "a" } ∧
    dedupeKey { defaultCfg with dedupe := "addr" } dupA =
      dedupeKey { defaultCfg with dedupe := "addr" } dupB ∧
    sortKey { defaultCfg with sortBy := "type" } dupA =
      sortKey { defaultCfg with sortBy := "type" } dupB :=
  ⟨(type_comparisons_case_insensitive { defaultCfg with onlyTypes := ["SS"] } dupA
      { dupB with name := some "a" } (by rfl)).1 (by rfl),
   (type_comparisons_case_insensitive { defaultCfg with dedupe := "addr" } dupA dupB
      (by rfl)).2.1 rfl (by rfl) (by rfl),
   (type_comparisons_case_insensitive { defaultCfg with sortBy := "type" } dupA dupB
      (by rfl)).2.2 rfl⟩
